import Mathlib

/-!
Verification development for the esportsearnings data scraper (src/main.py).

The embedding models pandas DataFrames as a column list plus an ordered list
of rows, where a row is an association list from column names to scalar
values.  Dates are encoded as natural numbers y*10000 + m*100 + d, which is
order-isomorphic to calendar order for valid dates; floating-point amounts
are modelled as rationals.  The three pagination loops of main.py are
modelled as fuel-indexed recursive functions over an abstract fetch
sequence (the DataFrame produced by get_data for each successive request);
a result of none means the loop was still running when the fuel ran out.
Faults (pandas KeyError / parse errors) are modelled with Except String.
-/

set_option autoImplicit false

namespace Scraper

/-- Scalar cell values appearing in the modelled DataFrames: strings,
JSON integers, floats (as rationals), parsed calendar dates (encoded
y*10000+m*100+d), and missing values (NaN). -/
inductive Value where
  | vStr (s : String)
  | vNat (n : Nat)
  | vRat (q : Rat)
  | vDate (d : Nat)
  | vNull
  deriving DecidableEq

open Value

/-- A row of a DataFrame: an association list from column name to value. -/
abbrev Row := List (String × Value)

/-- Lookup of a column value in a row (first matching key). -/
def Row.get : Row → String → Option Value
  | [], _ => none
  | (c2, v) :: t, c => if c2 = c then some v else Row.get t c

/-- Column assignment on a row: replaces the first binding of the column if
present, otherwise appends the column at the end (pandas column add). -/
def Row.set : Row → String → Value → Row
  | [], c, v => [(c, v)]
  | (c2, v2) :: t, c, v => if c2 = c then (c, v) :: t else (c2, v2) :: Row.set t c v

/-- A DataFrame: the column schema plus the ordered rows. -/
structure DataFrame where
  cols : List String
  rows : List Row
  deriving DecidableEq

/-- The empty DataFrame (no columns, no rows), as produced by
pd.DataFrame() and by get_data on error/empty responses. -/
def emptyDF : DataFrame := ⟨[], []⟩

/-- Number of rows, pandas df.shape[0]. -/
def DataFrame.nrows (df : DataFrame) : Nat := df.rows.length

/-- Row-wise concatenation, pandas df_all.append(df): rows are concatenated
in order, the column schema is the order-preserving union. -/
def DataFrame.append (a b : DataFrame) : DataFrame :=
  ⟨a.cols ++ b.cols.filter (fun c => !(decide (c ∈ a.cols))), a.rows ++ b.rows⟩

/-- Scalar column assignment, pandas df[c] = v: every row gets value v in
column c (overwriting any existing value), and c joins the schema. -/
def setColConst (df : DataFrame) (c : String) (v : Value) : DataFrame :=
  ⟨if c ∈ df.cols then df.cols else df.cols ++ [c],
   df.rows.map (fun r => Row.set r c v)⟩

/-- Column read, pandas df[c] / df.c: KeyError when the column is absent
from the schema; rows lacking the column individually yield NaN. -/
def getColE (df : DataFrame) (c : String) : Except String (List Value) :=
  if c ∈ df.cols then
    .ok (df.rows.map (fun r => (Row.get r c).getD vNull))
  else
    .error ("KeyError: " ++ c)

/-- Except-valued map over a list, propagating the first error. -/
def mapME {α β : Type} (f : α → Except String β) : List α → Except String (List β)
  | [] => .ok []
  | a :: t =>
    match f a with
    | .error e => .error e
    | .ok b =>
      match mapME f t with
      | .error e => .error e
      | .ok t2 => .ok (b :: t2)

/-- One row of a whole-column transformation df[c] = f(df[c]). -/
def colApplyRow (c : String) (f : Value → Except String Value) (r : Row) :
    Except String Row :=
  (f ((Row.get r c).getD vNull)).map (fun v => Row.set r c v)

/-- Whole-column transformation df[c] = f(df[c]): KeyError when the column
is absent from the schema, otherwise transform the column cell of every
row, propagating per-cell faults. -/
def colApply (df : DataFrame) (c : String) (f : Value → Except String Value) :
    Except String DataFrame :=
  if c ∈ df.cols then
    match mapME (colApplyRow c f) df.rows with
    | .error e => .error e
    | .ok rs => .ok ⟨df.cols, rs⟩
  else
    .error ("KeyError: " ++ c)

/-- Column removal, pandas df.drop(cs, axis=1): KeyError when any named
column is absent, otherwise the columns leave the schema and every row. -/
def dropCols (df : DataFrame) (cs : List String) : Except String DataFrame :=
  if cs.all (fun c => decide (c ∈ df.cols)) then
    .ok ⟨df.cols.filter (fun c => !(decide (c ∈ cs))),
         df.rows.map (fun r => r.filter (fun p => !(decide (p.1 ∈ cs))))⟩
  else
    .error "KeyError: drop"

/-- Boolean-mask row filter, pandas df[df[c] == v]: KeyError when the
column is absent, otherwise keeps exactly the rows whose c-value equals v. -/
def filterEq (df : DataFrame) (c : String) (v : Value) :
    Except String DataFrame :=
  if c ∈ df.cols then
    .ok ⟨df.cols, df.rows.filter (fun r => (Row.get r c).getD vNull = v)⟩
  else
    .error ("KeyError: " ++ c)

/-- The StartDate of a row, when present and parsed. -/
def startDateOf (r : Row) : Option Nat :=
  match Row.get r "StartDate" with
  | some (vDate n) => some n
  | _ => none

/-- Minimum parsed StartDate over the rows, pandas df.StartDate.min();
none when no row carries a parsed StartDate. -/
def dfMinStart (df : DataFrame) : Option Nat :=
  match df.rows.filterMap startDateOf with
  | [] => none
  | h :: t => some (t.foldl Nat.min h)

/-- Date encoding: y*10000 + m*100 + d, order-isomorphic to calendar order
for valid dates. -/
def mkDate (y m d : Nat) : Nat := y * 10000 + m * 100 + d

/-- Character-level splitter worker (structural recursion, so fully
evaluable). -/
def splitCharAux (sep : Char) : List Char → List Char → List (List Char)
  | [], acc => [acc.reverse]
  | c :: t, acc =>
    if c = sep then acc.reverse :: splitCharAux sep t []
    else splitCharAux sep t (c :: acc)

/-- Split of a string at every occurrence of a separator character,
matching str.split(sep) on the inputs this system feeds it. -/
def splitOnChar (sep : Char) (s : String) : List (List Char) :=
  splitCharAux sep s.data []

/-- Value of a decimal digit character. -/
def charDigit? (c : Char) : Option Nat :=
  if c.isDigit then some (c.toNat - 48) else none

/-- Accumulating decimal read of a digit list; none on any non-digit. -/
def natOfDigits : List Char → Nat → Option Nat
  | [], acc => some acc
  | c :: t, acc =>
    match charDigit? c with
    | none => none
    | some d => natOfDigits t (acc * 10 + d)

/-- Decimal read of a non-empty digit list. -/
def digitsToNat? : List Char → Option Nat
  | [] => none
  | l => natOfDigits l 0

/-- Parse of an ISO date string yyyy-mm-dd, as pd.to_datetime does on the
API's date strings; fails on any other shape. -/
def parseDate (s : String) : Except String Nat :=
  match splitOnChar (Char.ofNat 45) s with
  | [y, m, d] =>
    match digitsToNat? y, digitsToNat? m, digitsToNat? d with
    | some a, some b, some c => .ok (mkDate a b c)
    | _, _, _ => .error ("date: " ++ s)
  | _ => .error ("date: " ++ s)

/-- Fuel-driven Euclidean algorithm by structural recursion, so that it
reduces during kernel evaluation (Nat.gcd itself is defined by
well-founded recursion and does not). -/
def gcdF : Nat → Nat → Nat → Nat
  | 0, _, b => b
  | fuel + 1, a, b => if a = 0 then b else gcdF fuel (b % a) a

theorem gcdF_eq : ∀ (fuel a b : Nat), a < fuel → gcdF fuel a b = Nat.gcd a b := by
  intro fuel
  induction fuel with
  | zero => intro a b h; omega
  | succ n ih =>
    intro a b h
    by_cases ha : a = 0
    · subst ha; simp [gcdF]
    · rw [gcdF, if_neg ha, Nat.gcd_rec a b]
      exact ih (b % a) a (by
        have h2 : b % a < a := Nat.mod_lt b (Nat.pos_of_ne_zero ha)
        omega)

/-- The reduced rational (if neg then -1 else 1) * mant / d, built directly
in lowest terms through the Rat.mk' constructor so that it evaluates by
kernel reduction. -/
def ratDecimal (neg : Bool) (mant d : Nat) : Rat :=
  if hd : d = 0 then 0
  else
    let g := gcdF (mant + 1) mant d
    have hg : g = Nat.gcd mant d := gcdF_eq (mant + 1) mant d (Nat.lt_succ_self mant)
    have hgpos : 0 < g := by
      rw [hg]
      exact Nat.gcd_pos_of_pos_right mant (Nat.pos_of_ne_zero hd)
    let q : Rat := Rat.mk' ((mant / g : Nat) : Int) (d / g)
      (by
        have hdvd : g ∣ d := by rw [hg]; exact Nat.gcd_dvd_right mant d
        have : 0 < d / g := Nat.div_pos (Nat.le_of_dvd (Nat.pos_of_ne_zero hd) hdvd) hgpos
        omega)
      (by
        simp only [Int.natAbs_ofNat]
        rw [hg]
        exact Nat.coprime_div_gcd_div_gcd (hg ▸ hgpos))
    if neg then -q else q

/-- Parse of a decimal numeric string (optional leading minus, optional
fractional part) into a rational, as float(s) does; fails on a string
with no digits or stray characters. -/
def strToRat (s : String) : Except String Rat :=
  match s.data with
  | [] => .error ("float: " ++ s)
  | l0 =>
    let neg := l0.headD (Char.ofNat 32) = Char.ofNat 45
    let l1 := if neg then l0.tail else l0
    match splitCharAux (Char.ofNat 46) l1 [] with
    | [i] =>
      match digitsToNat? i with
      | some a => .ok (ratDecimal neg a 1)
      | none => .error ("float: " ++ s)
    | [i, f] =>
      if i = [] ∧ f = [] then .error ("float: " ++ s)
      else
        match natOfDigits i 0, natOfDigits f 0 with
        | some a, some b =>
          .ok (ratDecimal neg (a * 10 ^ f.length + b) (10 ^ f.length))
        | _, _ => .error ("float: " ++ s)
    | _ => .error ("float: " ++ s)

/-- Cell-level pd.to_datetime: parses a date string, keeps an already
parsed date, faults on anything else. -/
def toDatetimeV : Value → Except String Value
  | vStr s => (parseDate s).map vDate
  | vDate n => .ok (vDate n)
  | _ => .error "to_datetime"

/-- Cell-level astype(float): parses a numeric string, converts an
integer, keeps a float, faults on anything else. -/
def toFloatV : Value → Except String Value
  | vStr s => (strToRat s).map vRat
  | vNat n => .ok (vRat (n : Rat))
  | vRat q => .ok (vRat q)
  | _ => .error "astype: float"

/-- First-occurrence-order deduplication worker. -/
def uniqueAux : List Value → List Value → List Value
  | [], _ => []
  | h :: t, seen => if h ∈ seen then uniqueAux t seen else h :: uniqueAux t (h :: seen)

/-- Order-preserving deduplication, pandas Series.unique(): keeps the first
occurrence of each value. -/
def uniqueFirst (l : List Value) : List Value := uniqueAux l []

/-- An HTTP response as seen by get_data: the status code, the raw body
text, and the DataFrame the body parses to (pd.json_normalize of the JSON
body) when it is consulted. -/
structure HttpResponse where
  status : Nat
  text : String
  json : Except String DataFrame

/-- Model of get_data (src/main.py lines 29-39): on status 200 with empty
body return the empty DataFrame; on status 200 with a body return its
parse; on any other status log the code and return the empty DataFrame.
The second component is the list of log lines printed. -/
def get_data (resp : HttpResponse) : Except String (DataFrame × List String) :=
  if resp.status = 200 then
    if resp.text = "" then .ok (emptyDF, [])
    else
      match resp.json with
      | .error e => .error e
      | .ok df => .ok (df, [])
  else
    .ok (emptyDF, ["Error: " ++ toString resp.status])

/-- Model of process_tournaments (src/main.py lines 42-48): parse the
StartDate and EndDate columns to dates, then cast TotalUSDPrize to float;
a missing column raises KeyError and a bad cell raises a parse fault. -/
def process_tournaments (df : DataFrame) : Except String DataFrame :=
  match colApply df "StartDate" toDatetimeV with
  | .error e => .error e
  | .ok df1 =>
    match colApply df1 "EndDate" toDatetimeV with
    | .error e => .error e
    | .ok df2 => colApply df2 "TotalUSDPrize" toFloatV

/-- The while-condition of get_tournament_data (src/main.py line 61):
first_run or df.shape[0] < limit or df_all.StartDate.min() > cutoff.
The loop continues while this holds. -/
def tournCond (df dfAll : DataFrame) (firstRun : Bool) (limit cutoff : Nat) : Bool :=
  firstRun || decide (df.nrows < limit) ||
    (match dfMinStart dfAll with
     | some m => decide (cutoff < m)
     | none => false)

/-- Fuel-indexed body of the get_tournament_data while loop.  pages k is
the DataFrame returned by get_data for the fetch at offset k*limit.  The
state is (iterations done, last page, accumulator, first_run flag);
returns none when the fuel runs out with the loop still running, and
otherwise the final accumulator with the number of iterations performed. -/
def tournGo (pages : Nat → DataFrame) (cutoff limit : Nat) :
    Nat → Nat → DataFrame → DataFrame → Bool →
    Except String (Option (DataFrame × Nat))
  | 0, _, _, _, _ => .ok none
  | fuel + 1, k, df, dfAll, firstRun =>
    if tournCond df dfAll firstRun limit cutoff then
      match process_tournaments (pages k) with
      | .error e => .error e
      | .ok df2 => tournGo pages cutoff limit fuel (k + 1) df2 (dfAll.append df2) false
    else
      .ok (some (dfAll, k))

/-- Model of get_tournament_data (src/main.py lines 52-71): the
Offset-Until-Date paginator over the recent-tournaments endpoint. -/
def get_tournament_data (pages : Nat → DataFrame) (cutoff limit fuel : Nat) :
    Except String (Option (DataFrame × Nat)) :=
  tournGo pages cutoff limit fuel 0 emptyDF emptyDF true

/-- Accumulator contents after n iterations of the tournament loop, given
the processed page sequence: the append of processed pages 0..n-1. -/
def accumAfter (procPages : Nat → DataFrame) (n : Nat) : DataFrame :=
  (List.range n).foldl (fun acc k => acc.append (procPages k)) emptyDF

/-- The tournament loop's stop condition as checked after iteration n
(n ≥ 1): the negation of the while-condition with first_run already
false, the last page being processed page n-1 and the accumulator holding
pages 0..n-1. -/
def tournStop (procPages : Nat → DataFrame) (cutoff limit n : Nat) : Bool :=
  !(tournCond (procPages (n - 1)) (accumAfter procPages n) false limit cutoff)

/-- Worker of get_games_data: walk the identifier list, fetch one page per
identifier, stamp GameId, append; also records the list of identifiers for
which a fetch was issued, in order. -/
def gamesGo (fetch : Value → DataFrame) :
    List Value → DataFrame → List Value → DataFrame × List Value
  | [], acc, reqs => (acc, reqs)
  | id :: rest, acc, reqs =>
    let page := setColConst (fetch id) "GameId" id
    gamesGo fetch rest (acc.append page) (reqs ++ [id])

/-- Model of get_games_data (src/main.py lines 74-87): the Per-ID
Single-Fetch strategy; fetch id is the DataFrame get_data returns for the
game-by-id request for id. -/
def get_games_data (fetch : Value → DataFrame) (ids : List Value) :
    DataFrame × List Value :=
  gamesGo fetch ids emptyDF []

/-- Worker of get_tournament_earnings: one fetch per tournament id, stamp
TournamentId, append; records the issued identifiers in order. -/
def tournEarnGo (fetch : Value → DataFrame) :
    List Value → DataFrame → List Value → DataFrame × List Value
  | [], acc, reqs => (acc, reqs)
  | id :: rest, acc, reqs =>
    let page := setColConst (fetch id) "TournamentId" id
    tournEarnGo fetch rest (acc.append page) (reqs ++ [id])

/-- Model of get_tournament_earnings (src/main.py lines 121-139): the
Per-ID single-fetch tournament-results strategy. -/
def get_tournament_earnings (fetch : Value → DataFrame) (ids : List Value) :
    DataFrame × List Value :=
  tournEarnGo fetch ids emptyDF []

/-- The page a single identifier's inner earnings loop appends at inner
step k: the fetched page with GameId stamped over every row
(src/main.py lines 105-106). -/
def earnTagged (fetch : Value → Nat → DataFrame) (id : Value) (k : Nat) :
    DataFrame :=
  setColConst (fetch id k) "GameId" id

/-- Fuel-indexed inner while-loop of get_game_earnings (src/main.py lines
103-113): fetch the page at inner step k, append it, stop when that page
has fewer than limit rows; returns the accumulator and the number of
pages fetched so far (k+1 at the stop), or none when fuel runs out. -/
def earnInner (pageAt : Nat → DataFrame) (limit : Nat) :
    Nat → Nat → DataFrame → Option (DataFrame × Nat)
  | 0, _, _ => none
  | fuel + 1, k, acc =>
    let page := pageAt k
    let acc2 := acc.append page
    if page.nrows < limit then some (acc2, k + 1)
    else earnInner pageAt limit fuel (k + 1) acc2

/-- Outer per-identifier loop of get_game_earnings: run the inner loop for
each identifier in order, threading the shared accumulator; records one
(identifier, page count) group per identifier. -/
def earnOuter (fetch : Value → Nat → DataFrame) (limit fuel : Nat) :
    List Value → DataFrame → List (Value × Nat) →
    Option (DataFrame × List (Value × Nat))
  | [], acc, groups => some (acc, groups)
  | id :: rest, acc, groups =>
    match earnInner (earnTagged fetch id) limit fuel 0 acc with
    | none => none
    | some (acc2, n) => earnOuter fetch limit fuel rest acc2 (groups ++ [(id, n)])

/-- Model of get_game_earnings (src/main.py lines 90-118): the Per-ID
Offset-Until-Short-Page strategy; fetch id k is the DataFrame get_data
returns for identifier id at offset k*limit. -/
def get_game_earnings (fetch : Value → Nat → DataFrame) (ids : List Value)
    (limit fuel : Nat) : Option (DataFrame × List (Value × Nat)) :=
  earnOuter fetch limit fuel ids emptyDF []

/-- Row contents of pages k, k+1, ..., k+n-1 concatenated in order. -/
def pagesConcatRows (pageAt : Nat → DataFrame) (k n : Nat) : List Row :=
  (List.range' k n).flatMap (fun j => (pageAt j).rows)

/-- The configured cutoff date of the run, src/main.py line 13:
query_min_date = date(2023, 1, 1). -/
def query_min_date : Nat := mkDate 2023 1 1

/-- Final post-processing of main (src/main.py lines 168-172): drop the
NameFirst and NameLast columns from the solo earnings and solo
tournament-results frames; the team frames pass through untouched.
Result order: (solo earnings, team earnings, solo tournament results,
team tournament results). -/
def finalPostprocessing (soloE teamE soloTE teamTE : DataFrame) :
    Except String (DataFrame × DataFrame × DataFrame × DataFrame) :=
  match dropCols soloE ["NameFirst", "NameLast"] with
  | .error e => .error e
  | .ok s1 =>
    match dropCols soloTE ["NameFirst", "NameLast"] with
    | .error e => .error e
    | .ok s2 => .ok (s1, teamE, s2, teamTE)

/-- The environment main runs against: the DataFrame produced by get_data
for each request of each endpoint, plus the fuel bound given to the two
unbounded loops (a model artifact: none below means a loop was still
running). -/
structure Env where
  tournPages : Nat → DataFrame
  gamePage : Value → DataFrame
  soloEarnPages : Value → Nat → DataFrame
  teamEarnPages : Value → Nat → DataFrame
  soloResultPage : Value → DataFrame
  teamResultPage : Value → DataFrame
  fuel : Nat

/-- Sequencing for fault-or-still-running computations: propagate the
fault, propagate fuel exhaustion, otherwise continue. -/
def bindEO {α β : Type} (x : Except String (Option α))
    (f : α → Except String (Option β)) : Except String (Option β) :=
  match x with
  | .error e => .error e
  | .ok none => .ok none
  | .ok (some a) => f a

/-- Lift of a fallible step into the fault-or-still-running sequencing. -/
def liftEO {α : Type} (x : Except String α) : Except String (Option α) :=
  x.map some

/-- Lift of a fuel-bounded step into the fault-or-still-running
sequencing. -/
def liftO {α : Type} (x : Option α) : Except String (Option α) := .ok x

/-- Model of main (src/main.py lines 142-180): run the four extractors in
dependency order, apply the final post-processing, and return the six
written files as (path, DataFrame) pairs in write order.  A fault anywhere
is a .error (the Python run aborts before any CSV is written); .ok none
means a pagination loop was still running at the fuel bound. -/
def main (env : Env) : Except String (Option (List (String × DataFrame))) :=
  bindEO (get_tournament_data env.tournPages query_min_date 100 env.fuel)
    (fun tres =>
  bindEO (liftEO (getColE tres.1 "GameId")) (fun gameIdCol =>
  bindEO (liftEO (filterEq tres.1 "Teamplay" (Value.vNat 0))) (fun soloT =>
  bindEO (liftEO (getColE soloT "GameId")) (fun soloGameIdCol =>
  bindEO (liftO (get_game_earnings env.soloEarnPages
      (uniqueFirst soloGameIdCol) 100 env.fuel)) (fun soloERes =>
  bindEO (liftEO (filterEq tres.1 "Teamplay" (Value.vNat 1))) (fun teamT =>
  bindEO (liftEO (getColE teamT "GameId")) (fun teamGameIdCol =>
  bindEO (liftO (get_game_earnings env.teamEarnPages
      (uniqueFirst teamGameIdCol) 100 env.fuel)) (fun teamERes =>
  bindEO (liftEO (getColE soloT "TournamentId")) (fun soloTournIdCol =>
  bindEO (liftEO (getColE teamT "TournamentId")) (fun teamTournIdCol =>
  bindEO (liftEO (finalPostprocessing soloERes.1 teamERes.1
      (get_tournament_earnings env.soloResultPage
        (uniqueFirst soloTournIdCol)).1
      (get_tournament_earnings env.teamResultPage
        (uniqueFirst teamTournIdCol)).1)) (fun post =>
  .ok (some
    [("data/tournaments.csv", tres.1),
     ("data/games.csv", (get_games_data env.gamePage (uniqueFirst gameIdCol)).1),
     ("data/solo_earnings.csv", post.1),
     ("data/team_earnings.csv", post.2.1),
     ("data/solo_tournament_earnings.csv", post.2.2.1),
     ("data/team_tournament_earnings.csv", post.2.2.2)]))))))))))))

/-! Basic lemmas about rows and DataFrame operations. -/

theorem Row.get_set_self (r : Row) (c : String) (v : Value) :
    Row.get (Row.set r c v) c = some v := by
  induction r with
  | nil => simp [Row.set, Row.get]
  | cons p t ih =>
    by_cases h : p.1 = c
    · simp [Row.set, Row.get, h]
    · simp [Row.set, Row.get, h, ih]

theorem Row.get_set_ne (r : Row) (c c2 : String) (v : Value) (h : c2 ≠ c) :
    Row.get (Row.set r c2 v) c = Row.get r c := by
  have h5 : ¬ c = c2 := fun he => h he.symm
  induction r with
  | nil => simp [Row.set, Row.get, h]
  | cons p t ih =>
    by_cases h3 : p.1 = c2
    · simp [Row.set, Row.get, h3, h, h5]
    · by_cases h4 : p.1 = c <;> simp [Row.set, Row.get, h3, h4, h5, ih]

theorem Row.get_filter_not_mem (r : Row) (cs : List String) (c : String)
    (h : ¬ c ∈ cs) :
    Row.get (r.filter (fun p => !(decide (p.1 ∈ cs)))) c = Row.get r c := by
  induction r with
  | nil => simp
  | cons p t ih =>
    by_cases h2 : p.1 ∈ cs
    · have hne : p.1 ≠ c := fun he => h (he ▸ h2)
      simp [List.filter_cons, h2, Row.get, hne, ih]
    · by_cases h3 : p.1 = c <;> simp [List.filter_cons, h2, Row.get, h3, h, ih]

theorem append_rows (a b : DataFrame) :
    (DataFrame.append a b).rows = a.rows ++ b.rows := rfl

theorem setColConst_rows (df : DataFrame) (c : String) (v : Value) :
    (setColConst df c v).rows = df.rows.map (fun r => Row.set r c v) := rfl

theorem setColConst_nrows (df : DataFrame) (c : String) (v : Value) :
    (setColConst df c v).nrows = df.nrows := by
  simp [setColConst, DataFrame.nrows]

theorem mem_setColConst_get (df : DataFrame) (c : String) (v : Value) (r : Row)
    (h : r ∈ (setColConst df c v).rows) : Row.get r c = some v := by
  rw [setColConst_rows] at h
  obtain ⟨r0, _, rfl⟩ := List.mem_map.mp h
  exact Row.get_set_self r0 c v

theorem mapME_ok_forall2 {α β : Type} (f : α → Except String β) :
    ∀ (l : List α) (l2 : List β), mapME f l = .ok l2 →
      List.Forall₂ (fun a b => f a = .ok b) l l2 := by
  intro l
  induction l with
  | nil =>
    intro l2 h
    simp only [mapME, Except.ok.injEq] at h
    subst h
    exact List.Forall₂.nil
  | cons a t ih =>
    intro l2 h
    simp only [mapME] at h
    cases hfa : f a with
    | error e => rw [hfa] at h; simp at h
    | ok b =>
      rw [hfa] at h
      cases hmt : mapME f t with
      | error e => rw [hmt] at h; simp at h
      | ok t2 =>
        rw [hmt] at h
        simp only [Except.ok.injEq] at h
        subst h
        exact List.Forall₂.cons hfa (ih t2 hmt)

theorem forall2_chain {α β γ : Type} {r1 : α → β → Prop} {r2 : β → γ → Prop} :
    ∀ {l1 : List α} {l2 : List β} {l3 : List γ},
      List.Forall₂ r1 l1 l2 → List.Forall₂ r2 l2 l3 →
      List.Forall₂ (fun a c => ∃ b, r1 a b ∧ r2 b c) l1 l3 := by
  intro l1 l2 l3 h1
  induction h1 generalizing l3 with
  | nil =>
    intro h2
    cases h2
    exact List.Forall₂.nil
  | cons ha ht ih =>
    intro h2
    cases h2 with
    | cons hb ht2 => exact List.Forall₂.cons ⟨_, ha, hb⟩ (ih ht2)

theorem colApply_ok (df df2 : DataFrame) (c : String)
    (f : Value → Except String Value) (h : colApply df c f = .ok df2) :
    df2.cols = df.cols ∧
      List.Forall₂ (fun r r2 => colApplyRow c f r = .ok r2) df.rows df2.rows := by
  unfold colApply at h
  by_cases hc : c ∈ df.cols
  · rw [if_pos hc] at h
    cases hm : mapME (colApplyRow c f) df.rows with
    | error e => rw [hm] at h; simp at h
    | ok rs =>
      rw [hm] at h
      simp only [Except.ok.injEq] at h
      subst h
      exact ⟨rfl, mapME_ok_forall2 _ _ _ hm⟩
  · rw [if_neg hc] at h
    simp at h

theorem colApplyRow_ok (c : String) (f : Value → Except String Value)
    (r r2 : Row) (h : colApplyRow c f r = .ok r2) :
    ∃ v2, f ((Row.get r c).getD Value.vNull) = .ok v2 ∧ r2 = Row.set r c v2 := by
  unfold colApplyRow at h
  cases hf : f ((Row.get r c).getD Value.vNull) with
  | error e => rw [hf] at h; simp [Except.map] at h
  | ok v2 =>
    rw [hf] at h
    simp only [Except.map, Except.map_ok, Except.ok.injEq] at h
    exact ⟨v2, rfl, h.symm⟩

theorem dropCols_ok (df df2 : DataFrame) (cs : List String)
    (h : dropCols df cs = .ok df2) :
    df2.cols = df.cols.filter (fun c => !(decide (c ∈ cs))) ∧
    df2.rows = df.rows.map (fun r => r.filter (fun p => !(decide (p.1 ∈ cs)))) := by
  unfold dropCols at h
  by_cases hc : cs.all (fun c => decide (c ∈ df.cols))
  · rw [if_pos hc] at h
    cases h
    exact ⟨rfl, rfl⟩
  · rw [if_neg hc] at h
    simp at h

/-! Lemmas about the Offset-Until-Date tournament paginator loop. -/

theorem accumAfter_succ (procPages : Nat → DataFrame) (n : Nat) :
    accumAfter procPages (n + 1) = (accumAfter procPages n).append (procPages n) := by
  simp [accumAfter, List.range_succ]

theorem tournGo_start (pages procPages : Nat → DataFrame) (cutoff limit : Nat)
    (hok : process_tournaments (pages 0) = .ok (procPages 0)) (fuel : Nat) :
    get_tournament_data pages cutoff limit (fuel + 1) =
      tournGo pages cutoff limit fuel 1 (procPages 0) (accumAfter procPages 1) false := by
  unfold get_tournament_data
  rw [tournGo, if_pos (by simp [tournCond]), hok]
  dsimp only
  have haccum : accumAfter procPages 1 = DataFrame.append emptyDF (procPages 0) := by
    rfl
  rw [haccum]

theorem tournGo_step (pages procPages : Nat → DataFrame) (cutoff limit : Nat)
    (k fuel : Nat)
    (hok : process_tournaments (pages k) = .ok (procPages k)) :
    tournGo pages cutoff limit (fuel + 1) k (procPages (k - 1))
        (accumAfter procPages k) false =
      if tournStop procPages cutoff limit k then
        .ok (some (accumAfter procPages k, k))
      else
        tournGo pages cutoff limit fuel (k + 1) (procPages k)
          (accumAfter procPages (k + 1)) false := by
  rw [tournGo]
  cases hcv : tournCond (procPages (k - 1)) (accumAfter procPages k) false limit cutoff with
  | false =>
    have hs : tournStop procPages cutoff limit k = true := by simp [tournStop, hcv]
    rw [if_neg (by simp [hcv]), if_pos hs]
  | true =>
    have hs : tournStop procPages cutoff limit k = false := by simp [tournStop, hcv]
    rw [if_pos (by simp [hcv]), hok, if_neg (by simp [hs])]
    dsimp only
    rw [accumAfter_succ]

theorem tournGo_reach (pages procPages : Nat → DataFrame) (cutoff limit : Nat)
    (hok : ∀ k, process_tournaments (pages k) = .ok (procPages k)) :
    ∀ j k, 1 ≤ k → tournStop procPages cutoff limit (k + j) = true →
      (∀ m, k ≤ m → m < k + j → tournStop procPages cutoff limit m = false) →
      ∀ fuel, j + 1 ≤ fuel →
      tournGo pages cutoff limit fuel k (procPages (k - 1))
          (accumAfter procPages k) false =
        .ok (some (accumAfter procPages (k + j), k + j)) := by
  intro j
  induction j with
  | zero =>
    intro k hk hstop hmin fuel hf
    obtain ⟨f2, rfl⟩ : ∃ f2, fuel = f2 + 1 := ⟨fuel - 1, by omega⟩
    rw [tournGo_step pages procPages cutoff limit k f2 (hok k),
      if_pos (by simpa using hstop)]
    simp
  | succ n ih =>
    intro k hk hstop hmin fuel hf
    obtain ⟨f2, rfl⟩ : ∃ f2, fuel = f2 + 1 := ⟨fuel - 1, by omega⟩
    rw [tournGo_step pages procPages cutoff limit k f2 (hok k),
      if_neg (by simp [hmin k (by omega) (by omega)])]
    have h1 : procPages k = procPages ((k + 1) - 1) := by simp
    have h2 : k + (n + 1) = (k + 1) + n := by omega
    rw [h1, h2]
    exact ih (k + 1) (by omega) (by rw [← h2]; exact hstop)
      (fun m hm1 hm2 => hmin m (by omega) (by omega)) f2 (by omega)

theorem tournGo_inv (pages procPages : Nat → DataFrame) (cutoff limit : Nat)
    (hok : ∀ k, process_tournaments (pages k) = .ok (procPages k)) :
    ∀ fuel k dfA n, 1 ≤ k →
      tournGo pages cutoff limit fuel k (procPages (k - 1))
          (accumAfter procPages k) false = .ok (some (dfA, n)) →
      k ≤ n ∧ dfA = accumAfter procPages n ∧
        tournStop procPages cutoff limit n = true ∧
        ∀ m, k ≤ m → m < n → tournStop procPages cutoff limit m = false := by
  intro fuel
  induction fuel with
  | zero =>
    intro k dfA n hk h
    simp [tournGo] at h
  | succ f ih =>
    intro k dfA n hk h
    rw [tournGo_step pages procPages cutoff limit k f (hok k)] at h
    by_cases hs : tournStop procPages cutoff limit k
    · rw [if_pos hs] at h
      simp only [Except.ok.injEq, Option.some.injEq, Prod.mk.injEq] at h
      obtain ⟨h1, h2⟩ := h
      subst h2
      exact ⟨le_refl k, h1.symm, hs, fun m hm1 hm2 => absurd hm2 (by omega)⟩
    · rw [if_neg hs] at h
      have h3 : procPages k = procPages ((k + 1) - 1) := by simp
      rw [h3] at h
      obtain ⟨h1, h2, h4, h5⟩ := ih (k + 1) dfA n (by omega) h
      refine ⟨by omega, h2, h4, fun m hm1 hm2 => ?_⟩
      by_cases hmk : m = k
      · subst hmk
        simpa using hs
      · exact h5 m (by omega) hm2

theorem tournGo_none (pages procPages : Nat → DataFrame) (cutoff limit : Nat)
    (hok : ∀ k, process_tournaments (pages k) = .ok (procPages k)) :
    ∀ fuel k, 1 ≤ k →
      (∀ m, k ≤ m → m < k + fuel → tournStop procPages cutoff limit m = false) →
      tournGo pages cutoff limit fuel k (procPages (k - 1))
          (accumAfter procPages k) false = .ok none := by
  intro fuel
  induction fuel with
  | zero => intro k hk hmin; rw [tournGo]
  | succ f ih =>
    intro k hk hmin
    rw [tournGo_step pages procPages cutoff limit k f (hok k),
      if_neg (by simp [hmin k (by omega) (by omega)])]
    have h3 : procPages k = procPages ((k + 1) - 1) := by simp
    rw [h3]
    exact ih (k + 1) (by omega) (fun m hm1 hm2 => hmin m (by omega) (by omega))

/-! Claim C1: termination condition of the Offset-Until-Date tournament
paginator. -/

/-- C1: over any fetch sequence whose pages all post-process successfully,
the tournament paginator (1) only ever returns after n ≥ 1 iterations,
with the accumulator holding exactly processed pages 0..n-1, the stop
condition true at n and false at every earlier iteration; (2) stops after
exactly the first iteration n at which the stop condition holds, given
enough fuel; (3) is still running at any fuel bound within which the stop
condition never held — and (4) the stop condition after an iteration is
exactly: the just-fetched page has at least limit rows AND the minimum
StartDate over all accumulated rows is at most the cutoff. -/
theorem tournament_paginator_termination
    (pages procPages : Nat → DataFrame) (cutoff limit : Nat)
    (hok : ∀ k, process_tournaments (pages k) = .ok (procPages k)) :
    (∀ fuel dfA n,
       get_tournament_data pages cutoff limit fuel = .ok (some (dfA, n)) →
       1 ≤ n ∧ dfA = accumAfter procPages n ∧
         tournStop procPages cutoff limit n = true ∧
         ∀ m, 1 ≤ m → m < n → tournStop procPages cutoff limit m = false) ∧
    (∀ n, 1 ≤ n → tournStop procPages cutoff limit n = true →
       (∀ m, 1 ≤ m → m < n → tournStop procPages cutoff limit m = false) →
       ∀ fuel, n + 1 ≤ fuel →
       get_tournament_data pages cutoff limit fuel =
         .ok (some (accumAfter procPages n, n))) ∧
    (∀ fuel, (∀ m, 1 ≤ m → m ≤ fuel → tournStop procPages cutoff limit m = false) →
       get_tournament_data pages cutoff limit fuel = .ok none) ∧
    (∀ n m0, dfMinStart (accumAfter procPages (n + 1)) = some m0 →
       (tournStop procPages cutoff limit (n + 1) = true ↔
         (limit ≤ (procPages n).nrows ∧ m0 ≤ cutoff))) := by
  refine ⟨?_, ?_, ?_, ?_⟩
  · intro fuel dfA n h
    match fuel with
    | 0 => simp [get_tournament_data, tournGo] at h
    | f + 1 =>
      rw [tournGo_start pages procPages cutoff limit (hok 0) f] at h
      obtain ⟨h1, h2, h3, h4⟩ :=
        tournGo_inv pages procPages cutoff limit hok f 1 dfA n (le_refl 1) h
      exact ⟨h1, h2, h3, h4⟩
  · intro n hn hstop hmin fuel hf
    obtain ⟨f2, rfl⟩ : ∃ f2, fuel = f2 + 1 := ⟨fuel - 1, by omega⟩
    rw [tournGo_start pages procPages cutoff limit (hok 0) f2]
    have h2 : n = 1 + (n - 1) := by omega
    rw [h2]
    exact tournGo_reach pages procPages cutoff limit hok (n - 1) 1 (le_refl 1)
      (by rw [← h2]; exact hstop)
      (fun m hm1 hm2 => hmin m hm1 (by omega)) f2 (by omega)
  · intro fuel hmin
    match fuel with
    | 0 => rfl
    | f + 1 =>
      rw [tournGo_start pages procPages cutoff limit (hok 0) f]
      exact tournGo_none pages procPages cutoff limit hok f 1 (le_refl 1)
        (fun m hm1 hm2 => hmin m hm1 (by omega))
  · intro n m0 hmin
    simp only [tournStop, tournCond, Nat.add_sub_cancel, hmin, Bool.false_or,
      Bool.not_or, Bool.and_eq_true, Bool.not_eq_true', decide_eq_false_iff_not,
      Nat.not_lt]

/-- A concrete well-formed one-row tournament page for the C1 witness. -/
def c1page : DataFrame :=
  ⟨["StartDate", "EndDate", "TotalUSDPrize"],
   [[("StartDate", Value.vStr "2020-01-01"), ("EndDate", Value.vStr "2020-01-02"),
     ("TotalUSDPrize", Value.vStr "1000")]]⟩

/-- The constant fetch sequence returning c1page. -/
def c1pages : Nat → DataFrame := fun _ => c1page

/-- The processed form of c1page. -/
def c1procPage : DataFrame :=
  ⟨["StartDate", "EndDate", "TotalUSDPrize"],
   [[("StartDate", Value.vDate 20200101), ("EndDate", Value.vDate 20200102),
     ("TotalUSDPrize", Value.vRat (ratDecimal false 1000 1))]]⟩

/-- The constant processed-page sequence for the C1 witness. -/
def c1procFun : Nat → DataFrame := fun _ => c1procPage

set_option maxRecDepth 40000 in
/-- Witness for C1: with page limit 1 and cutoff 2023-01-01, the constant
one-row 2020-01-01 fetch sequence stops after exactly one iteration with
that page as the accumulator. -/
theorem tournament_paginator_termination_witness :
    get_tournament_data c1pages (mkDate 2023 1 1) 1 2 =
      .ok (some (accumAfter c1procFun 1, 1)) := by
  have h := (tournament_paginator_termination c1pages c1procFun
    (mkDate 2023 1 1) 1 (fun k => rfl)).2.1
  exact h 1 (by omega) (by rfl) (fun m hm1 hm2 => absurd hm2 (by omega)) 2 (by omega)

/-! Claim C2: the spec's two-page scenario (second page of 40 rows) — the
code does not behave as claimed: a 40-row page keeps the while-condition
true, so the loop continues rather than terminating. -/

/-- A raw tournament row with the given StartDate string. -/
def c2rowA : Row :=
  [("StartDate", Value.vStr "2023-06-01"), ("EndDate", Value.vStr "2023-06-30"),
   ("TotalUSDPrize", Value.vStr "1000")]

/-- A raw tournament row dated 2022-11-01. -/
def c2rowB : Row :=
  [("StartDate", Value.vStr "2022-11-01"), ("EndDate", Value.vStr "2022-11-30"),
   ("TotalUSDPrize", Value.vStr "1000")]

/-- The tournament page schema. -/
def c2cols : List String := ["StartDate", "EndDate", "TotalUSDPrize"]

/-- The claim's fetch sequence: page 0 has 100 rows with min StartDate
2023-06-01; every later page has 40 rows dated 2022-11-01. -/
def c2pages : Nat → DataFrame := fun k =>
  if k = 0 then ⟨c2cols, List.replicate 100 c2rowA⟩
  else ⟨c2cols, List.replicate 40 c2rowB⟩

set_option maxRecDepth 40000 in
/-- Counterexample to C2: in the claim's exact scenario (cutoff
2023-01-01, limit 100, first page 100 rows with min StartDate 2023-06-01,
second page 40 rows bringing the accumulated min to 2022-11-01) the loop
does NOT terminate after the second page with 140 rows: because 40 < 100
the while-condition df.shape[0] < limit stays true, and the loop is still
running after five iterations. -/
theorem c2_counterexample :
    get_tournament_data c2pages (mkDate 2023 1 1) 100 5 = .ok none := by rfl

/-- The processed form of c2rowA. -/
def c2procRowA : Row :=
  [("StartDate", Value.vDate 20230601), ("EndDate", Value.vDate 20230630),
   ("TotalUSDPrize", Value.vRat (ratDecimal false 1000 1))]

/-- The processed form of c2rowB. -/
def c2procRowB : Row :=
  [("StartDate", Value.vDate 20221101), ("EndDate", Value.vDate 20221130),
   ("TotalUSDPrize", Value.vRat (ratDecimal false 1000 1))]

/-- The amended scenario's fetch sequence: the second page is full (100
rows dated 2022-11-01). -/
def c2bpages : Nat → DataFrame := fun k =>
  if k = 0 then ⟨c2cols, List.replicate 100 c2rowA⟩
  else ⟨c2cols, List.replicate 100 c2rowB⟩

/-- The processed pages of the amended scenario. -/
def c2bproc : Nat → DataFrame := fun k =>
  if k = 0 then ⟨c2cols, List.replicate 100 c2procRowA⟩
  else ⟨c2cols, List.replicate 100 c2procRowB⟩

set_option maxRecDepth 40000 in
/-- C2 amended: with cutoff 2023-01-01 and limit 100, a first page of 100
rows with min StartDate 2023-06-01 makes the loop continue, and a second
page that is FULL (100 rows) with accumulated min StartDate 2022-11-01
makes it terminate after the second page with all 200 accumulated rows
(termination additionally requires the just-fetched page to have at least
limit rows, which a 40-row page fails). -/
theorem c2_amended :
    get_tournament_data c2bpages (mkDate 2023 1 1) 100 5 =
      .ok (some (accumAfter c2bproc 2, 2)) ∧
    (accumAfter c2bproc 2).nrows = 200 ∧
    tournStop c2bproc (mkDate 2023 1 1) 100 1 = false ∧
    tournStop c2bproc (mkDate 2023 1 1) 100 2 = true := by
  exact ⟨by rfl, by rfl, by rfl, by rfl⟩

/-! Claim C3: a malformed or empty first page does NOT terminate the loop
via the size check — the size check points the other way. -/

set_option maxRecDepth 40000 in
/-- Counterexample to C3: with every fetch returning the empty DataFrame
(the get_data result for a malformed/empty or failed response), the
tournament loop does not terminate cleanly at all: process_tournaments
raises KeyError on the missing StartDate column and the run aborts. -/
theorem c3_counterexample :
    get_tournament_data (fun _ => emptyDF) (mkDate 2023 1 1) 100 3 =
      .error "KeyError: StartDate" := by rfl

/-- C3 amended: an empty first page aborts the run with a KeyError fault
on the StartDate column, and more generally a just-fetched page with
fewer than limit rows makes the while-condition true, so a short first
page causes the loop to CONTINUE rather than terminate. -/
theorem c3_amended :
    (∀ (pages : Nat → DataFrame) (cutoff limit fuel : Nat), 1 ≤ fuel →
       pages 0 = emptyDF →
       get_tournament_data pages cutoff limit fuel = .error "KeyError: StartDate") ∧
    (∀ (df dfAll : DataFrame) (cutoff limit : Nat), df.nrows < limit →
       tournCond df dfAll false limit cutoff = true) := by
  constructor
  · intro pages cutoff limit fuel hf h0
    obtain ⟨f2, rfl⟩ : ∃ f2, fuel = f2 + 1 := ⟨fuel - 1, by omega⟩
    unfold get_tournament_data
    rw [tournGo, if_pos (by simp [tournCond]), h0]
    rfl
  · intro df dfAll cutoff limit h
    simp [tournCond, h]

/-- A 0-row DataFrame that still has a StartDate column, for the short-page
half of the C3 witness. -/
def c3shortDF : DataFrame := ⟨["StartDate"], []⟩

set_option maxRecDepth 40000 in
/-- Witness for C3 amended: at fuel 1 the all-empty fetch sequence aborts
with the KeyError, and a concrete 0-row page makes the continue-condition
true at limit 100. -/
theorem c3_amended_witness :
    get_tournament_data (fun _ => emptyDF) (mkDate 2023 1 1) 100 1 =
      .error "KeyError: StartDate" ∧
    tournCond c3shortDF emptyDF false 100 (mkDate 2023 1 1) = true := by
  exact ⟨c3_amended.1 (fun _ => emptyDF) (mkDate 2023 1 1) 100 1 (by omega) rfl,
    c3_amended.2 c3shortDF emptyDF (mkDate 2023 1 1) 100 (by decide)⟩

/-! Claim C6: the HTTP fetcher silently degrades failures to empty
row-sets. -/

/-- C6: get_data returns an empty row-set, together with a log line naming
the status code, on every non-200 response, and an empty row-set with no
log on a 200 response with empty body; both are ordinary returns (.ok),
never a fault, and both hand the caller the same empty DataFrame, so the
return value cannot distinguish a failed request from an empty result. -/
theorem fetcher_silent_degrade :
    (∀ resp : HttpResponse, resp.status ≠ 200 →
       get_data resp = .ok (emptyDF, ["Error: " ++ toString resp.status])) ∧
    (∀ resp : HttpResponse, resp.status = 200 → resp.text = "" →
       get_data resp = .ok (emptyDF, [])) := by
  constructor
  · intro resp h
    simp [get_data, h]
  · intro resp h1 h2
    simp [get_data, h1, h2]

/-- A concrete HTTP 500 response with a non-empty body. -/
def resp500 : HttpResponse := ⟨500, "oops", .error "bad json"⟩

/-- A concrete HTTP 200 response with an empty body. -/
def resp200empty : HttpResponse := ⟨200, "", .ok emptyDF⟩

/-- Witness for C6: evaluated at a concrete 500 response and a concrete
empty-body 200 response. -/
theorem fetcher_silent_degrade_witness :
    get_data resp500 = .ok (emptyDF, ["Error: 500"]) ∧
    get_data resp200empty = .ok (emptyDF, []) := by
  constructor
  · rw [fetcher_silent_degrade.1 resp500 (by decide)]
    rfl
  · exact fetcher_silent_degrade.2 resp200empty rfl rfl

/-! Claim C8: process_tournaments casts numeric-string prize values to
their floating-point value. -/

/-- C8: for every tournament row whose TotalUSDPrize cell is a numeric
string s parsing to the number q, the corresponding row of the
process_tournaments output has TotalUSDPrize equal to the float q; the
rows correspond pairwise in order. -/
theorem tournament_prize_cast (df df2 : DataFrame)
    (h : process_tournaments df = .ok df2) :
    List.Forall₂ (fun r r2 => ∀ s q,
        Row.get r "TotalUSDPrize" = some (Value.vStr s) →
        strToRat s = .ok q →
        Row.get r2 "TotalUSDPrize" = some (Value.vRat q))
      df.rows df2.rows := by
  unfold process_tournaments at h
  revert h
  cases h1 : colApply df "StartDate" toDatetimeV with
  | error e => intro h; simp at h
  | ok d1 =>
    intro h
    dsimp only at h
    cases h2 : colApply d1 "EndDate" toDatetimeV with
    | error e => rw [h2] at h; simp at h
    | ok d2 =>
      rw [h2] at h
      dsimp only at h
      obtain ⟨-, hf1⟩ := colApply_ok df d1 _ _ h1
      obtain ⟨-, hf2⟩ := colApply_ok d1 d2 _ _ h2
      obtain ⟨-, hf3⟩ := colApply_ok d2 df2 _ _ h
      have h123 := forall2_chain (forall2_chain hf1 hf2) hf3
      refine List.Forall₂.imp ?_ h123
      intro r r3 hr s q hget hrat
      obtain ⟨r2m, ⟨r1m, hr1, hr2⟩, hr3⟩ := hr
      obtain ⟨v1, -, rfl⟩ := colApplyRow_ok _ _ _ _ hr1
      obtain ⟨v2, -, rfl⟩ := colApplyRow_ok _ _ _ _ hr2
      obtain ⟨v3, hfv3, rfl⟩ := colApplyRow_ok _ _ _ _ hr3
      have e1 : Row.get (Row.set r "StartDate" v1) "TotalUSDPrize" =
          some (Value.vStr s) := by
        rw [Row.get_set_ne _ _ _ _ (by decide)]
        exact hget
      have e2 : Row.get (Row.set (Row.set r "StartDate" v1) "EndDate" v2)
          "TotalUSDPrize" = some (Value.vStr s) := by
        rw [Row.get_set_ne _ _ _ _ (by decide)]
        exact e1
      rw [e2] at hfv3
      simp only [Option.getD, toFloatV, hrat, Except.map] at hfv3
      cases hfv3
      exact Row.get_set_self _ _ _

/-- A concrete one-row tournament DataFrame whose prize cell is the
numeric string 1234.50. -/
def c8df : DataFrame :=
  ⟨["StartDate", "EndDate", "TotalUSDPrize"],
   [[("StartDate", Value.vStr "2023-01-02"), ("EndDate", Value.vStr "2023-01-03"),
     ("TotalUSDPrize", Value.vStr "1234.50")]]⟩

/-- The evaluated process_tournaments output on c8df. -/
def c8out : DataFrame :=
  match process_tournaments c8df with
  | .ok d => d
  | .error _ => emptyDF

/-- The processed row expected for the C8 witness. -/
def c8outRow : Row :=
  [("StartDate", Value.vDate 20230102), ("EndDate", Value.vDate 20230103),
   ("TotalUSDPrize", Value.vRat (ratDecimal false 123450 100))]

/-- Witness for C8: on the concrete row the prize column comes out as the
rational 2469/2, that is 1234.50. -/
theorem tournament_prize_cast_witness :
    Row.get (c8out.rows.headD []) "TotalUSDPrize" =
      some (Value.vRat ((2469 : Rat) / 2)) := by
  have hpe : process_tournaments c8df = .ok c8out := rfl
  have h := tournament_prize_cast c8df c8out hpe
  have hrat : strToRat "1234.50" = .ok ((2469 : Rat) / 2) := by
    have h1 : strToRat "1234.50" = .ok (ratDecimal false 123450 100) := rfl
    rw [h1]
    congr 1
    calc ratDecimal false 123450 100
        = ((ratDecimal false 123450 100).num : Rat) /
            ((ratDecimal false 123450 100).den : Rat) :=
          (Rat.num_div_den _).symm
      _ = (2469 : Rat) / 2 := by
          have hn : (ratDecimal false 123450 100).num = 2469 := rfl
          have hd : (ratDecimal false 123450 100).den = 2 := rfl
          rw [hn, hd]
          norm_num
  have hrows : c8out.rows = [c8outRow] := rfl
  rw [hrows] at h
  cases h with
  | cons hh _ =>
    have h9 := hh "1234.50" ((2469 : Rat) / 2) rfl hrat
    rw [hrows]
    simpa using h9

/-! Claim C9: the final post-processing strips exactly the NameFirst and
NameLast columns from the two solo frames and passes the team frames
through unchanged. -/

/-- C9: when finalPostprocessing succeeds, the team earnings and team
tournament-results frames of the output are exactly the input frames,
while each solo frame keeps exactly its columns other than NameFirst and
NameLast, every row keeping exactly its bindings for those columns; the
value of any column other than NameFirst and NameLast is unchanged in
every row. -/
theorem final_post_strips_solo_identity
    (soloE teamE soloTE teamTE : DataFrame)
    (out : DataFrame × DataFrame × DataFrame × DataFrame)
    (h : finalPostprocessing soloE teamE soloTE teamTE = .ok out) :
    out.2.1 = teamE ∧ out.2.2.2 = teamTE ∧
    out.1.cols = soloE.cols.filter
      (fun c => !(decide (c ∈ (["NameFirst", "NameLast"] : List String)))) ∧
    out.1.rows = soloE.rows.map
      (fun r => r.filter
        (fun p => !(decide (p.1 ∈ (["NameFirst", "NameLast"] : List String))))) ∧
    out.2.2.1.cols = soloTE.cols.filter
      (fun c => !(decide (c ∈ (["NameFirst", "NameLast"] : List String)))) ∧
    out.2.2.1.rows = soloTE.rows.map
      (fun r => r.filter
        (fun p => !(decide (p.1 ∈ (["NameFirst", "NameLast"] : List String))))) ∧
    (∀ (r : Row) (c : String), c ≠ "NameFirst" → c ≠ "NameLast" →
      Row.get (r.filter
        (fun p => !(decide (p.1 ∈ (["NameFirst", "NameLast"] : List String))))) c =
        Row.get r c) := by
  unfold finalPostprocessing at h
  revert h
  cases hd1 : dropCols soloE ["NameFirst", "NameLast"] with
  | error e => intro h; simp at h
  | ok s1 =>
    intro h
    dsimp only at h
    cases hd2 : dropCols soloTE ["NameFirst", "NameLast"] with
    | error e => rw [hd2] at h; simp at h
    | ok s2 =>
      rw [hd2] at h
      dsimp only at h
      cases h
      obtain ⟨hc1, hr1⟩ := dropCols_ok soloE s1 _ hd1
      obtain ⟨hc2, hr2⟩ := dropCols_ok soloTE s2 _ hd2
      refine ⟨rfl, rfl, hc1, hr1, hc2, hr2, ?_⟩
      intro r c hne1 hne2
      exact Row.get_filter_not_mem r _ c (by simp [hne1, hne2])

/-- Concrete solo earnings frame for the C9 witness. -/
def c9soloE : DataFrame :=
  ⟨["GameId", "NameFirst", "NameLast"],
   [[("GameId", Value.vNat 1), ("NameFirst", Value.vStr "Ada"),
     ("NameLast", Value.vStr "L")]]⟩

/-- Concrete team earnings frame for the C9 witness. -/
def c9teamE : DataFrame := ⟨["TeamName"], [[("TeamName", Value.vStr "T1")]]⟩

/-- Concrete solo tournament-results frame for the C9 witness. -/
def c9soloTE : DataFrame :=
  ⟨["TournamentId", "NameFirst", "NameLast"],
   [[("TournamentId", Value.vNat 5), ("NameFirst", Value.vStr "B"),
     ("NameLast", Value.vStr "C")]]⟩

/-- Concrete team tournament-results frame for the C9 witness. -/
def c9teamTE : DataFrame := ⟨["TeamRank"], []⟩

/-- The evaluated finalPostprocessing output on the concrete C9 frames. -/
def c9out : DataFrame × DataFrame × DataFrame × DataFrame :=
  match finalPostprocessing c9soloE c9teamE c9soloTE c9teamTE with
  | .ok o => o
  | .error _ => (emptyDF, emptyDF, emptyDF, emptyDF)

/-- Witness for C9: on the concrete frames the team frames pass through
unchanged and the solo frames keep exactly their other columns. -/
theorem final_post_strips_solo_identity_witness :
    c9out.2.1 = c9teamE ∧ c9out.2.2.2 = c9teamTE ∧
    c9out.1.cols = ["GameId"] ∧
    c9out.2.2.1.cols = ["TournamentId"] ∧
    c9out.1.rows = [[("GameId", Value.vNat 1)]] := by
  have h := final_post_strips_solo_identity c9soloE c9teamE c9soloTE c9teamTE
    c9out rfl
  refine ⟨h.1, h.2.1, ?_, ?_, ?_⟩
  · rw [h.2.2.1]; rfl
  · rw [h.2.2.2.2.1]; rfl
  · rw [h.2.2.2.1]; rfl

/-! Lemmas about the per-identifier strategies. -/

theorem gamesGo_spec (fetch : Value → DataFrame) :
    ∀ (ids : List Value) (acc : DataFrame) (reqs : List Value),
      (gamesGo fetch ids acc reqs).1.rows =
        acc.rows ++ ids.flatMap (fun i => (setColConst (fetch i) "GameId" i).rows) ∧
      (gamesGo fetch ids acc reqs).2 = reqs ++ ids := by
  intro ids
  induction ids with
  | nil => intro acc reqs; simp [gamesGo]
  | cons id rest ih =>
    intro acc reqs
    simp only [gamesGo]
    obtain ⟨h1, h2⟩ := ih (acc.append (setColConst (fetch id) "GameId" id)) (reqs ++ [id])
    constructor
    · rw [h1, append_rows]
      simp [List.flatMap_cons, List.append_assoc]
    · rw [h2]
      simp

theorem tournEarnGo_spec (fetch : Value → DataFrame) :
    ∀ (ids : List Value) (acc : DataFrame) (reqs : List Value),
      (tournEarnGo fetch ids acc reqs).1.rows =
        acc.rows ++ ids.flatMap (fun i => (setColConst (fetch i) "TournamentId" i).rows) ∧
      (tournEarnGo fetch ids acc reqs).2 = reqs ++ ids := by
  intro ids
  induction ids with
  | nil => intro acc reqs; simp [tournEarnGo]
  | cons id rest ih =>
    intro acc reqs
    simp only [tournEarnGo]
    obtain ⟨h1, h2⟩ := ih (acc.append (setColConst (fetch id) "TournamentId" id)) (reqs ++ [id])
    constructor
    · rw [h1, append_rows]
      simp [List.flatMap_cons, List.append_assoc]
    · rw [h2]
      simp

theorem earnInner_run (pageAt : Nat → DataFrame) (limit : Nat) :
    ∀ (j k : Nat) (acc : DataFrame),
      (∀ m, m < j → limit ≤ (pageAt (k + m)).nrows) →
      (pageAt (k + j)).nrows < limit →
      ∀ fuel, j + 1 ≤ fuel →
      ∃ df, earnInner pageAt limit fuel k acc = some (df, k + j + 1) ∧
        df.rows = acc.rows ++ pagesConcatRows pageAt k (j + 1) := by
  intro j
  induction j with
  | zero =>
    intro k acc hfull hshort fuel hf
    obtain ⟨f2, rfl⟩ : ∃ f2, fuel = f2 + 1 := ⟨fuel - 1, by omega⟩
    refine ⟨acc.append (pageAt k), ?_, ?_⟩
    · simp only [earnInner]
      rw [if_pos (by simpa using hshort)]
    · rw [append_rows]
      simp [pagesConcatRows, List.range']
  | succ n ih =>
    intro k acc hfull hshort fuel hf
    obtain ⟨f2, rfl⟩ : ∃ f2, fuel = f2 + 1 := ⟨fuel - 1, by omega⟩
    have hfk : limit ≤ (pageAt k).nrows := by simpa using hfull 0 (by omega)
    obtain ⟨df, hin, hrows⟩ := ih (k + 1) (acc.append (pageAt k))
      (fun m hm => by
        have := hfull (m + 1) (by omega)
        have he : k + (m + 1) = k + 1 + m := by omega
        rwa [he] at this)
      (by
        have he : k + (n + 1) = k + 1 + n := by omega
        rwa [he] at hshort)
      f2 (by omega)
    refine ⟨df, ?_, ?_⟩
    · simp only [earnInner]
      rw [if_neg (by omega)]
      have he : k + (n + 1) + 1 = k + 1 + n + 1 := by omega
      rw [he]
      exact hin
    · rw [hrows, append_rows, List.append_assoc]
      have hp : pagesConcatRows pageAt k (n + 1 + 1) =
          (pageAt k).rows ++ pagesConcatRows pageAt (k + 1) (n + 1) := by
        simp [pagesConcatRows, List.range']
      rw [hp]

theorem earnInner_none (pageAt : Nat → DataFrame) (limit : Nat) :
    ∀ (fuel k : Nat) (acc : DataFrame),
      (∀ m, m < fuel → limit ≤ (pageAt (k + m)).nrows) →
      earnInner pageAt limit fuel k acc = none := by
  intro fuel
  induction fuel with
  | zero => intro k acc h; rfl
  | succ f ih =>
    intro k acc h
    simp only [earnInner]
    rw [if_neg (by have := h 0 (by omega); simp at this; omega)]
    exact ih (k + 1) _ (fun m hm => by
      have := h (m + 1) (by omega)
      have he : k + (m + 1) = k + 1 + m := by omega
      rwa [he] at this)

theorem earnInner_mem (pageAt : Nat → DataFrame) (limit : Nat) :
    ∀ (fuel k : Nat) (acc df : DataFrame) (n : Nat),
      earnInner pageAt limit fuel k acc = some (df, n) →
      ∀ r ∈ df.rows, r ∈ acc.rows ∨ ∃ j, r ∈ (pageAt j).rows := by
  intro fuel
  induction fuel with
  | zero => intro k acc df n h; simp [earnInner] at h
  | succ f ih =>
    intro k acc df n h r hr
    simp only [earnInner] at h
    by_cases hs : (pageAt k).nrows < limit
    · rw [if_pos hs] at h
      simp only [Option.some.injEq, Prod.mk.injEq] at h
      obtain ⟨h1, -⟩ := h
      subst h1
      rcases List.mem_append.mp hr with h3 | h3
      · exact Or.inl h3
      · exact Or.inr ⟨k, h3⟩
    · rw [if_neg hs] at h
      rcases ih (k + 1) (acc.append (pageAt k)) df n h r hr with h3 | h3
      · rcases List.mem_append.mp h3 with h4 | h4
        · exact Or.inl h4
        · exact Or.inr ⟨k, h4⟩
      · exact Or.inr h3

theorem earnOuter_run (fetch : Value → Nat → DataFrame) (limit fuel : Nat) :
    ∀ (ids : List Value) (acc : DataFrame) (groups : List (Value × Nat)),
      (∀ id ∈ ids, ∃ kk, kk < fuel ∧ (fetch id kk).nrows < limit) →
      ∃ df gs, earnOuter fetch limit fuel ids acc groups = some (df, groups ++ gs) ∧
        gs.map Prod.fst = ids ∧
        df.rows = acc.rows ++
          gs.flatMap (fun g => pagesConcatRows (earnTagged fetch g.1) 0 g.2) ∧
        ∀ g ∈ gs, 1 ≤ g.2 ∧ (fetch g.1 (g.2 - 1)).nrows < limit ∧
          ∀ m, m < g.2 - 1 → limit ≤ (fetch g.1 m).nrows := by
  intro ids
  induction ids with
  | nil =>
    intro acc groups h
    exact ⟨acc, [], by simp [earnOuter], rfl, by simp, by simp⟩
  | cons id rest ih =>
    intro acc groups h
    have hex : ∃ kk, (fetch id kk).nrows < limit := by
      obtain ⟨kk, -, hk2⟩ := h id (List.mem_cons_self id rest)
      exact ⟨kk, hk2⟩
    have hjshort : (fetch id (Nat.find hex)).nrows < limit := Nat.find_spec hex
    have hjmin : ∀ m, m < Nat.find hex → limit ≤ (fetch id m).nrows :=
      fun m hm => Nat.le_of_not_lt (Nat.find_min hex hm)
    have hjfuel : Nat.find hex + 1 ≤ fuel := by
      obtain ⟨kk, hk1, hk2⟩ := h id (List.mem_cons_self id rest)
      have := Nat.find_min' hex hk2
      omega
    have htag : ∀ m, (earnTagged fetch id m).nrows = (fetch id m).nrows :=
      fun m => setColConst_nrows _ _ _
    obtain ⟨df1, hin, hrows1⟩ := earnInner_run (earnTagged fetch id) limit
      (Nat.find hex) 0 acc
      (fun m hm => by rw [htag, Nat.zero_add]; exact hjmin m (by omega))
      (by rw [htag, Nat.zero_add]; exact hjshort)
      fuel hjfuel
    have hin2 : earnInner (earnTagged fetch id) limit fuel 0 acc =
        some (df1, Nat.find hex + 1) := by simpa using hin
    obtain ⟨df, gs, houter, hmap, hrows, hprops⟩ :=
      ih df1 (groups ++ [(id, Nat.find hex + 1)])
        (fun i hi => h i (List.mem_cons_of_mem id hi))
    refine ⟨df, (id, Nat.find hex + 1) :: gs, ?_, ?_, ?_, ?_⟩
    · simp only [earnOuter]
      rw [hin2]
      dsimp only
      rw [houter]
      simp
    · simp [hmap]
    · rw [hrows, hrows1]
      have hz : pagesConcatRows (earnTagged fetch id) 0 (Nat.find hex + 1) =
          pagesConcatRows (earnTagged fetch id) 0 ((id, Nat.find hex + 1) : Value × Nat).2 := rfl
      simp [List.flatMap_cons, List.append_assoc]
    · intro g hg
      rcases List.mem_cons.mp hg with hg1 | hg1
      · subst hg1
        refine ⟨by omega, by simpa using hjshort, fun m hm => hjmin m (by omega)⟩
      · exact hprops g hg1

theorem earnOuter_mem (fetch : Value → Nat → DataFrame) (limit fuel : Nat) :
    ∀ (ids : List Value) (acc : DataFrame) (groups : List (Value × Nat))
      (df : DataFrame) (gs : List (Value × Nat)),
      earnOuter fetch limit fuel ids acc groups = some (df, gs) →
      ∀ r ∈ df.rows, r ∈ acc.rows ∨ ∃ i ∈ ids, ∃ j, r ∈ (earnTagged fetch i j).rows := by
  intro ids
  induction ids with
  | nil =>
    intro acc groups df gs h r hr
    simp only [earnOuter, Option.some.injEq, Prod.mk.injEq] at h
    obtain ⟨h1, -⟩ := h
    subst h1
    exact Or.inl hr
  | cons id rest ih =>
    intro acc groups df gs h r hr
    simp only [earnOuter] at h
    cases hin : earnInner (earnTagged fetch id) limit fuel 0 acc with
    | none => rw [hin] at h; simp at h
    | some p =>
      rw [hin] at h
      dsimp only at h
      rcases ih p.1 (groups ++ [(id, p.2)]) df gs h r hr with h3 | h3
      · rcases earnInner_mem (earnTagged fetch id) limit fuel 0 acc p.1 p.2
          (by rw [hin]) r h3 with h4 | h4
        · exact Or.inl h4
        · obtain ⟨j, hj⟩ := h4
          exact Or.inr ⟨id, List.mem_cons_self id rest, j, hj⟩
      · obtain ⟨i, hi, j, hj⟩ := h3
        exact Or.inr ⟨i, List.mem_cons_of_mem id hi, j, hj⟩

theorem mem_pagesConcat_tag (fetch : Value → Nat → DataFrame) (i : Value)
    (n : Nat) (r : Row) (h : r ∈ pagesConcatRows (earnTagged fetch i) 0 n) :
    Row.get r "GameId" = some i := by
  simp only [pagesConcatRows, List.mem_flatMap] at h
  obtain ⟨j, -, hj⟩ := h
  exact mem_setColConst_get _ _ _ _ hj

/-! Claim C4: each per-ID strategy issues exactly N top-level fetch
groups, rows are tagged with their group's identifier, and output order
follows input identifier order. -/

/-- C4: for every identifier list, get_games_data and
get_tournament_earnings issue exactly one fetch per identifier in input
order (the recorded request list IS the identifier list), and their output
rows are the concatenation, in input-identifier order, of the per-identifier
tagged pages, every row of a group carrying that group's identifier;
get_game_earnings (whenever each identifier reaches a short page within
the fuel bound) produces exactly one group per identifier in input order,
its rows the concatenation of each group's pages in ascending offset
order, every row tagged with its group's identifier. -/
theorem per_id_fetch_groups :
    (∀ (fetch : Value → DataFrame) (ids : List Value),
       (get_games_data fetch ids).2 = ids ∧
       (get_games_data fetch ids).2.length = ids.length ∧
       (get_games_data fetch ids).1.rows =
         ids.flatMap (fun i => (setColConst (fetch i) "GameId" i).rows) ∧
       ∀ i ∈ ids, ∀ r ∈ (setColConst (fetch i) "GameId" i).rows,
         Row.get r "GameId" = some i) ∧
    (∀ (fetch : Value → DataFrame) (ids : List Value),
       (get_tournament_earnings fetch ids).2 = ids ∧
       (get_tournament_earnings fetch ids).1.rows =
         ids.flatMap (fun i => (setColConst (fetch i) "TournamentId" i).rows) ∧
       ∀ i ∈ ids, ∀ r ∈ (setColConst (fetch i) "TournamentId" i).rows,
         Row.get r "TournamentId" = some i) ∧
    (∀ (fetch : Value → Nat → DataFrame) (ids : List Value) (limit fuel : Nat),
       (∀ id ∈ ids, ∃ kk, kk < fuel ∧ (fetch id kk).nrows < limit) →
       ∃ df gs, get_game_earnings fetch ids limit fuel = some (df, gs) ∧
         gs.map Prod.fst = ids ∧ gs.length = ids.length ∧
         df.rows = gs.flatMap (fun g => pagesConcatRows (earnTagged fetch g.1) 0 g.2) ∧
         ∀ g ∈ gs, ∀ r ∈ pagesConcatRows (earnTagged fetch g.1) 0 g.2,
           Row.get r "GameId" = some g.1) := by
  refine ⟨?_, ?_, ?_⟩
  · intro fetch ids
    obtain ⟨h1, h2⟩ := gamesGo_spec fetch ids emptyDF []
    refine ⟨by simpa using h2, ?_, by simpa using h1, ?_⟩
    · rw [show (get_games_data fetch ids).2 = ids from by simpa using h2]
    · intro i hi r hr
      exact mem_setColConst_get _ _ _ _ hr
  · intro fetch ids
    obtain ⟨h1, h2⟩ := tournEarnGo_spec fetch ids emptyDF []
    refine ⟨by simpa using h2, by simpa using h1, ?_⟩
    intro i hi r hr
    exact mem_setColConst_get _ _ _ _ hr
  · intro fetch ids limit fuel h
    obtain ⟨df, gs, houter, hmap, hrows, hprops⟩ :=
      earnOuter_run fetch limit fuel ids emptyDF [] h
    refine ⟨df, gs, by simpa using houter, hmap, ?_, by simpa using hrows, ?_⟩
    · rw [← hmap]
      simp
    · intro g hg r hr
      exact mem_pagesConcat_tag fetch g.1 g.2 r hr

/-- The concrete single-row game page of the C4 witness. -/
def c4page : DataFrame := ⟨["GameName"], [[("GameName", Value.vStr "G")]]⟩

/-- The concrete game fetcher of the C4 witness. -/
def c4fetchG : Value → DataFrame := fun _ => c4page

/-- Witness for C4, on the spec's scenario identifiers [7, 42]: exactly
two fetches in input order, two tagged rows in input order, and a
one-identifier earnings run producing exactly one group of one page. -/
theorem per_id_fetch_groups_witness :
    (get_games_data c4fetchG [Value.vNat 7, Value.vNat 42]).2 =
      [Value.vNat 7, Value.vNat 42] ∧
    (get_games_data c4fetchG [Value.vNat 7, Value.vNat 42]).1.rows =
      [[("GameName", Value.vStr "G"), ("GameId", Value.vNat 7)],
       [("GameName", Value.vStr "G"), ("GameId", Value.vNat 42)]] ∧
    get_game_earnings (fun _ _ => emptyDF) [Value.vNat 7] 100 1 =
      some (⟨["GameId"], []⟩, [(Value.vNat 7, 1)]) := by
  obtain ⟨hdf, hgs, heq, hmap, hlen, hrows, htags⟩ :=
    per_id_fetch_groups.2.2 (fun _ _ => emptyDF) [Value.vNat 7] 100 1
      (fun id hid => ⟨0, by omega, by show emptyDF.nrows < 100; decide⟩)
  refine ⟨(per_id_fetch_groups.1 c4fetchG [Value.vNat 7, Value.vNat 42]).1, ?_, ?_⟩
  · rw [(per_id_fetch_groups.1 c4fetchG [Value.vNat 7, Value.vNat 42]).2.2.1]
    rfl
  · rfl

/-! Claim C5: the Offset-Until-Short-Page strategy stops exactly at the
first page with fewer than limit rows, and the two-page round trip is the
plain concatenation of the two pages. -/

/-- C5: if for some identifier page 1 has exactly limit rows and page 2
has fewer, get_game_earnings on that single identifier returns the
concatenation of (the tagged forms of) pages 1 and 2, with exactly
|page1|+|page2| rows, terminating after the second page (group count 2);
in general the inner loop returns right after the first page with fewer
than limit rows, accumulating all pages up to it in ascending offset
order, and is still running at any fuel bound within which every page was
full. -/
theorem short_page_round_trip
    (fetch : Value → Nat → DataFrame) (id : Value) (limit fuel : Nat)
    (h1 : (fetch id 0).nrows = limit) (h2 : (fetch id 1).nrows < limit)
    (hf : 2 ≤ fuel) :
    (∃ df, get_game_earnings fetch [id] limit fuel = some (df, [(id, 2)]) ∧
       df.rows = (earnTagged fetch id 0).rows ++ (earnTagged fetch id 1).rows ∧
       df.nrows = (fetch id 0).nrows + (fetch id 1).nrows) ∧
    (∀ (pageAt : Nat → DataFrame) (j k : Nat) (acc : DataFrame),
       (∀ m, m < j → limit ≤ (pageAt (k + m)).nrows) →
       (pageAt (k + j)).nrows < limit →
       ∀ fl, j + 1 ≤ fl →
       ∃ df, earnInner pageAt limit fl k acc = some (df, k + j + 1) ∧
         df.rows = acc.rows ++ pagesConcatRows pageAt k (j + 1)) ∧
    (∀ (pageAt : Nat → DataFrame) (fl k : Nat) (acc : DataFrame),
       (∀ m, m < fl → limit ≤ (pageAt (k + m)).nrows) →
       earnInner pageAt limit fl k acc = none) := by
  refine ⟨?_, fun pageAt j k acc => earnInner_run pageAt limit j k acc,
    fun pageAt fl k acc => earnInner_none pageAt limit fl k acc⟩
  have htag : ∀ m, (earnTagged fetch id m).nrows = (fetch id m).nrows :=
    fun m => setColConst_nrows _ _ _
  obtain ⟨df, hin, hrows⟩ := earnInner_run (earnTagged fetch id) limit 1 0 emptyDF
    (fun m hm => by
      have hm0 : m = 0 := by omega
      subst hm0
      rw [htag, Nat.zero_add, h1])
    (by rw [htag]; exact h2)
    fuel hf
  have hin2 : earnInner (earnTagged fetch id) limit fuel 0 emptyDF = some (df, 2) := by
    simpa using hin
  refine ⟨df, ?_, ?_, ?_⟩
  · unfold get_game_earnings
    simp only [earnOuter]
    rw [hin2]
    rfl
  · rw [hrows]
    simp [pagesConcatRows, List.range', emptyDF]
  · have hr2 : df.rows = (earnTagged fetch id 0).rows ++ (earnTagged fetch id 1).rows := by
      rw [hrows]
      simp [pagesConcatRows, List.range', emptyDF]
    have hl0 : (earnTagged fetch id 0).rows.length = (fetch id 0).nrows := htag 0
    have hl1 : (earnTagged fetch id 1).rows.length = (fetch id 1).nrows := htag 1
    simp [DataFrame.nrows, hr2, List.length_append] at hl0 hl1 ⊢
    omega

/-- The 2-row page of the C5 witness. -/
def c5page0 : DataFrame := ⟨["P"], [[("P", Value.vNat 1)], [("P", Value.vNat 2)]]⟩

/-- The 1-row page of the C5 witness. -/
def c5page1 : DataFrame := ⟨["P"], [[("P", Value.vNat 3)]]⟩

/-- The per-offset fetcher of the C5 witness: a full page then a short
page. -/
def c5fetch : Value → Nat → DataFrame := fun _ k => if k = 0 then c5page0 else c5page1

/-- Witness for C5: with limit 2, a 2-row page 1 and a 1-row page 2, the
single-identifier run returns 3 rows in one group of two pages. -/
theorem short_page_round_trip_witness :
    (get_game_earnings c5fetch [Value.vNat 1] 2 2).map
        (fun p => (p.1.nrows, p.2)) = some (3, [(Value.vNat 1, 2)]) := by
  obtain ⟨df, heq, hrows, hn⟩ :=
    (short_page_round_trip c5fetch (Value.vNat 1) 2 2 (by decide) (by decide)
      (by omega)).1
  rw [heq]
  have h3 : df.nrows = 3 := by rw [hn]; rfl
  simp [h3]

/-! Claim C10: tag assignment overwrites any identifier value the API
echoed. -/

/-- C10: in every per-ID extractor the output rows are literally the
fetched rows with the identifier column re-assigned to the loop
identifier (Row.set), and Row.set followed by Row.get at the same column
always yields the assigned value — so the GameId (resp. TournamentId) of
every output row equals the loop identifier of its fetch group, whatever
value the fetched row carried in that column. -/
theorem per_id_tag_overwrites :
    (∀ (r : Row) (c : String) (v : Value), Row.get (Row.set r c v) c = some v) ∧
    (∀ (fetch : Value → DataFrame) (ids : List Value),
       (get_games_data fetch ids).1.rows =
         ids.flatMap (fun i => (fetch i).rows.map (fun r => Row.set r "GameId" i))) ∧
    (∀ (fetch : Value → DataFrame) (ids : List Value),
       (get_tournament_earnings fetch ids).1.rows =
         ids.flatMap (fun i => (fetch i).rows.map (fun r => Row.set r "TournamentId" i))) ∧
    (∀ (fetch : Value → Nat → DataFrame) (ids : List Value) (limit fuel : Nat)
       (df : DataFrame) (gs : List (Value × Nat)),
       get_game_earnings fetch ids limit fuel = some (df, gs) →
       ∀ r ∈ df.rows, ∃ i ∈ ids, ∃ k r0, r0 ∈ (fetch i k).rows ∧
         r = Row.set r0 "GameId" i ∧ Row.get r "GameId" = some i) := by
  refine ⟨fun r c v => Row.get_set_self r c v, ?_, ?_, ?_⟩
  · intro fetch ids
    have h1 := (gamesGo_spec fetch ids emptyDF []).1
    simp only [setColConst_rows] at h1
    simpa using h1
  · intro fetch ids
    have h1 := (tournEarnGo_spec fetch ids emptyDF []).1
    simp only [setColConst_rows] at h1
    simpa using h1
  · intro fetch ids limit fuel df gs h r hr
    rcases earnOuter_mem fetch limit fuel ids emptyDF [] df gs h r hr with h3 | h3
    · simp [emptyDF] at h3
    · obtain ⟨i, hi, j, hj⟩ := h3
      simp only [earnTagged, setColConst_rows] at hj
      obtain ⟨r0, hr0, hre⟩ := List.mem_map.mp hj
      exact ⟨i, hi, j, r0, hr0, hre.symm, hre ▸ Row.get_set_self r0 "GameId" i⟩

/-- The C10 witness fetcher: the API echoes a DIFFERENT GameId (999) than
the requested identifier. -/
def c10fetch : Value → DataFrame := fun _ => ⟨["GameId"], [[("GameId", Value.vNat 999)]]⟩

/-- The C10 witness per-offset fetcher for the earnings loop, echoing
GameId 999 in a short page. -/
def c10fetchE : Value → Nat → DataFrame := fun _ _ =>
  ⟨["GameId"], [[("GameId", Value.vNat 999)]]⟩

/-- Witness for C10: even though every fetched row echoes GameId 999, the
output rows of get_games_data and of get_game_earnings carry the loop
identifier 7. -/
theorem per_id_tag_overwrites_witness :
    (get_games_data c10fetch [Value.vNat 7]).1.rows = [[("GameId", Value.vNat 7)]] ∧
    Row.get [("GameId", Value.vNat 7)] "GameId" = some (Value.vNat 7) := by
  constructor
  · rw [per_id_tag_overwrites.2.1 c10fetch [Value.vNat 7]]
    rfl
  · obtain ⟨i, hi, k, r0, hr0, hre, hget⟩ :=
      per_id_tag_overwrites.2.2.2 c10fetchE [Value.vNat 7] 100 1
        (⟨["GameId"], [[("GameId", Value.vNat 7)]]⟩ : DataFrame)
        [(Value.vNat 7, 1)] rfl [("GameId", Value.vNat 7)] (by simp)
    have hi7 : i = Value.vNat 7 := by simpa using hi
    rw [hi7] at hget
    exact hget

/-! Claim C7: faults propagate uncaught through main, and file output is
all-or-nothing. -/

theorem bindEO_ok_some {α β : Type} (x : Except String (Option α))
    (f : α → Except String (Option β)) (b : β)
    (h : bindEO x f = .ok (some b)) :
    ∃ a, x = .ok (some a) ∧ f a = .ok (some b) := by
  cases x with
  | error e => simp [bindEO] at h
  | ok o =>
    cases o with
    | none => simp [bindEO] at h
    | some a => exact ⟨a, rfl, h⟩

/-- C7: faults are fatal and output is atomic.  First: whenever the first
tournament fetch yields the empty DataFrame (get_data's result for a
failed or empty response), main propagates the KeyError fault raised
inside process_tournaments and aborts — its result is that fault, so no
file list is produced at all.  Second: whenever main does produce files,
it produces exactly the six CSVs, in write order — never a partial
subset, since all writes sit after every extraction stage. -/
theorem pipeline_fault_atomicity :
    (∀ env : Env, 1 ≤ env.fuel → env.tournPages 0 = emptyDF →
       main env = .error "KeyError: StartDate") ∧
    (∀ (env : Env) (files : List (String × DataFrame)),
       main env = .ok (some files) →
       files.map Prod.fst =
         ["data/tournaments.csv", "data/games.csv", "data/solo_earnings.csv",
          "data/team_earnings.csv", "data/solo_tournament_earnings.csv",
          "data/team_tournament_earnings.csv"]) := by
  constructor
  · intro env hf h0
    unfold main
    have htd : get_tournament_data env.tournPages query_min_date 100 env.fuel =
        .error "KeyError: StartDate" := by
      obtain ⟨f2, hfe⟩ : ∃ f2, env.fuel = f2 + 1 := ⟨env.fuel - 1, by omega⟩
      rw [hfe]
      unfold get_tournament_data
      rw [tournGo, if_pos (by simp [tournCond]), h0]
      rfl
    rw [htd]
    rfl
  · intro env files h
    unfold main at h
    obtain ⟨a1, -, h⟩ := bindEO_ok_some _ _ _ h
    obtain ⟨a2, -, h⟩ := bindEO_ok_some _ _ _ h
    obtain ⟨a3, -, h⟩ := bindEO_ok_some _ _ _ h
    obtain ⟨a4, -, h⟩ := bindEO_ok_some _ _ _ h
    obtain ⟨a5, -, h⟩ := bindEO_ok_some _ _ _ h
    obtain ⟨a6, -, h⟩ := bindEO_ok_some _ _ _ h
    obtain ⟨a7, -, h⟩ := bindEO_ok_some _ _ _ h
    obtain ⟨a8, -, h⟩ := bindEO_ok_some _ _ _ h
    obtain ⟨a9, -, h⟩ := bindEO_ok_some _ _ _ h
    obtain ⟨a10, -, h⟩ := bindEO_ok_some _ _ _ h
    obtain ⟨a11, -, h⟩ := bindEO_ok_some _ _ _ h
    simp only [Except.ok.injEq, Option.some.injEq] at h
    subst h
    rfl

/-- The failing C7 environment: every tournament fetch returns the empty
DataFrame (as get_data does on HTTP 500). -/
def c7envBad : Env :=
  ⟨fun _ => emptyDF, fun _ => emptyDF, fun _ _ => emptyDF, fun _ _ => emptyDF,
   fun _ => emptyDF, fun _ => emptyDF, 1⟩

/-- A full tournament row for the successful C7 environment. -/
def c7trow : Row :=
  [("StartDate", Value.vStr "2022-01-01"), ("EndDate", Value.vStr "2022-01-02"),
   ("TotalUSDPrize", Value.vStr "1"), ("GameId", Value.vNat 1),
   ("Teamplay", Value.vNat 0), ("TournamentId", Value.vNat 5)]

/-- The 100-row tournament page of the successful C7 environment. -/
def c7tpage : DataFrame :=
  ⟨["StartDate", "EndDate", "TotalUSDPrize", "GameId", "Teamplay", "TournamentId"],
   List.replicate 100 c7trow⟩

/-- A one-row solo result page carrying the identity columns that the
final post-processing strips. -/
def c7earnPage : DataFrame :=
  ⟨["NameFirst", "NameLast"],
   [[("NameFirst", Value.vStr "a"), ("NameLast", Value.vStr "b")]]⟩

/-- The successful C7 environment: one full, old-enough tournament page,
one-row solo pages, empty team subsets. -/
def c7envGood : Env :=
  ⟨fun _ => c7tpage, fun _ => emptyDF, fun _ _ => c7earnPage, fun _ _ => emptyDF,
   fun _ => c7earnPage, fun _ => emptyDF, 2⟩

/-- The files produced by main on the successful C7 environment. -/
def c7goodFiles : List (String × DataFrame) :=
  match main c7envGood with
  | .ok (some fs) => fs
  | _ => []

set_option maxRecDepth 100000 in
/-- Witness for C7: the failing environment aborts with the KeyError; the
successful environment produces exactly the six files. -/
theorem pipeline_fault_atomicity_witness :
    main c7envBad = .error "KeyError: StartDate" ∧
    main c7envGood = .ok (some c7goodFiles) ∧
    c7goodFiles.map Prod.fst =
      ["data/tournaments.csv", "data/games.csv", "data/solo_earnings.csv",
       "data/team_earnings.csv", "data/solo_tournament_earnings.csv",
       "data/team_tournament_earnings.csv"] := by
  refine ⟨pipeline_fault_atomicity.1 c7envBad (by decide) rfl, rfl,
    pipeline_fault_atomicity.2 c7envGood c7goodFiles rfl⟩

end Scraper
